import Mathlib

/-!
Verification of the AgentSDR recurring-job scheduling engine.

The development shallowly embeds the scheduling code of the repository:

* `calculate_next_run_time` in `agentsdr/orgs/routes.py` (creation-time
  recurrence calculator, IST = UTC+5:30 fixed offset),
* `SchedulerService._calculate_next_run_time`, `_check_and_execute_schedules`,
  `_execute_schedule`, `_update_schedule_after_run` in
  `agentsdr/services/scheduler_service.py` (background poller),
* `_is_schedule_due`, `_execute_schedule`, `_update_schedule_after_run`,
  `_calculate_next_run_time`, `trigger_schedules` in
  `agentsdr/orgs/scheduler_webhook.py` (webhook trigger surface),
* `calculate_next_run_time` in `enhanced_scheduler.py` (standalone CLI poller).

Python `datetime` values are modelled as civil date-time records at second
granularity (`microsecond` is always zeroed by the code before any value is
stored, and dropping sub-second precision cannot flip any comparison used
here because every computed instant has `second = 0`).  Python datetime
comparison of two aware UTC datetimes is instant comparison; we embed it as
comparison of `toSec`, the total second count from the proleptic Gregorian
origin 0000-01-01 00:00:00.  A Python operation that raises (`ValueError`
from `replace` with an invalid day, unpacking errors from
`map(int, s.split(':'))`, `TypeError` from arithmetic on `None`) is embedded
as `none` / `Except.error`.
-/

namespace AgentSDR

/-- Civil date-time at second granularity (proleptic Gregorian, UTC unless
a local value is explicitly constructed by offset shifting). -/
structure DateTime where
  year : Nat
  month : Nat
  day : Nat
  hour : Nat
  minute : Nat
  second : Nat
deriving DecidableEq

/-- Gregorian leap-year test, as Python's `calendar.isleap`. -/
def isLeap (y : Nat) : Bool :=
  (y % 4 = 0 && y % 100 ≠ 0) || y % 400 = 0

/-- Length of a month, as Python's `calendar.monthrange(y, m)[1]`;
0 for an out-of-range month index. -/
def daysInMonth (y m : Nat) : Nat :=
  if m = 2 then (if isLeap y then 29 else 28)
  else if m = 4 ∨ m = 6 ∨ m = 9 ∨ m = 11 then 30
  else if 1 ≤ m ∧ m ≤ 12 then 31
  else 0

/-- Days elapsed in year `y` strictly before month `m` (month 1-based). -/
def daysBeforeMonth (y m : Nat) : Nat :=
  [0, 0, 31, 59, 90, 120, 151, 181, 212, 243, 273, 304, 334, 365].getD m 365
    + (if 3 ≤ m ∧ isLeap y then 1 else 0)

/-- Days elapsed strictly before year `y`, counted from year 0. -/
def daysBeforeYear : Nat → Nat
  | 0 => 0
  | y + 1 => daysBeforeYear y + (if isLeap y then 366 else 365)

/-- Day index of a date from the origin 0000-01-01. -/
def toDays (d : DateTime) : Nat :=
  daysBeforeYear d.year + daysBeforeMonth d.year d.month + (d.day - 1)

/-- Seconds from the origin; instant comparison of two UTC datetimes is
comparison of `toSec`. -/
def toSec (d : DateTime) : Nat :=
  toDays d * 86400 + (d.hour * 3600 + d.minute * 60 + d.second)

/-- Signed difference in seconds, embedding Python
`(a - b).total_seconds()` for aware datetimes. -/
def timeDiffSec (a b : DateTime) : Int :=
  (toSec a : Int) - (toSec b : Int)

/-- Well-formedness of a civil date-time record. -/
def DateTime.Valid (d : DateTime) : Prop :=
  1 ≤ d.month ∧ d.month ≤ 12 ∧ 1 ≤ d.day ∧ d.day ≤ daysInMonth d.year d.month
    ∧ d.hour < 24 ∧ d.minute < 60 ∧ d.second < 60

instance (d : DateTime) : Decidable d.Valid :=
  inferInstanceAs (Decidable (1 ≤ d.month ∧ d.month ≤ 12 ∧ 1 ≤ d.day
    ∧ d.day ≤ daysInMonth d.year d.month ∧ d.hour < 24 ∧ d.minute < 60 ∧ d.second < 60))

/-- The calendar successor day (embeds `+ timedelta(days=1)` on the date part). -/
def succDay (d : DateTime) : DateTime :=
  if d.day < daysInMonth d.year d.month then { d with day := d.day + 1 }
  else if d.month < 12 then { d with month := d.month + 1, day := 1 }
  else { d with year := d.year + 1, month := 1, day := 1 }

/-- The calendar predecessor day. -/
def predDay (d : DateTime) : DateTime :=
  if 1 < d.day then { d with day := d.day - 1 }
  else if 1 < d.month then { d with month := d.month - 1, day := daysInMonth d.year (d.month - 1) }
  else { d with year := d.year - 1, month := 12, day := 31 }

/-- Embeds `+ timedelta(days=n)`. -/
def addDays (d : DateTime) : Nat → DateTime
  | 0 => d
  | n + 1 => succDay (addDays d n)

/-- Embeds `+ timedelta(minutes=k)` for `k < 1440` (used with the fixed
IST offset 330 and with `timedelta(hours=1)` = 60). -/
def addMinutes (d : DateTime) (k : Nat) : DateTime :=
  if d.hour * 60 + d.minute + k < 1440 then
    { d with hour := (d.hour * 60 + d.minute + k) / 60,
             minute := (d.hour * 60 + d.minute + k) % 60 }
  else
    succDay { d with hour := (d.hour * 60 + d.minute + k - 1440) / 60,
                     minute := (d.hour * 60 + d.minute + k - 1440) % 60 }

/-- Embeds `- timedelta(minutes=k)` for `k < 1440`. -/
def subMinutes (d : DateTime) (k : Nat) : DateTime :=
  if k ≤ d.hour * 60 + d.minute then
    { d with hour := (d.hour * 60 + d.minute - k) / 60,
             minute := (d.hour * 60 + d.minute - k) % 60 }
  else
    predDay { d with hour := (d.hour * 60 + d.minute + 1440 - k) / 60,
                     minute := (d.hour * 60 + d.minute + 1440 - k) % 60 }

/-- Embeds `dt.replace(hour=h, minute=m, second=0, microsecond=0)`.
Validity of `h`, `m` is checked by the callers' parse step. -/
def replaceTime (d : DateTime) (h m : Nat) : DateTime :=
  { d with hour := h, minute := m, second := 0 }

/-- Embeds `dt.replace(year=y, month=mo, day=da)`; `none` is Python's
`ValueError` on an invalid combination. -/
def replaceDate (d : DateTime) (y mo da : Nat) : Option DateTime :=
  if 1 ≤ mo ∧ mo ≤ 12 ∧ 1 ≤ da ∧ da ≤ daysInMonth y mo then
    some { d with year := y, month := mo, day := da }
  else none

/-- Embeds `dt.replace(day=da)`. -/
def replaceDay (d : DateTime) (da : Nat) : Option DateTime :=
  replaceDate d d.year d.month da

/-- Embeds Python `dt.weekday()` (Monday = 0): the proleptic Gregorian
origin 0000-01-01 falls on a Saturday, weekday index 5. -/
def weekday (d : DateTime) : Nat :=
  (toDays d + 5) % 7

/-! ### Parsing of `schedule_time`

The source parses with `hour, minute = map(int, schedule_time.split(':'))`
and then calls `replace(hour=hour, minute=minute, ...)`.  A string that does
not split into exactly two all-digit fields, or whose fields are out of range
for `replace`, makes Python raise (`ValueError`); all of those raising paths
are embedded as `none`. -/

/-- Split a character list on the colon separator (embeds `s.split(':')`). -/
def splitOnColon : List Char → List (List Char)
  | [] => [[]]
  | c :: cs =>
    if c = ':' then [] :: splitOnColon cs
    else
      match splitOnColon cs with
      | [] => [[c]]
      | p :: ps => (c :: p) :: ps

/-- Accumulate decimal digits; `none` on a non-digit character. -/
def digitsToNat : List Char → Nat → Option Nat
  | [], acc => some acc
  | c :: cs, acc =>
    if '0' ≤ c ∧ c ≤ '9' then digitsToNat cs (acc * 10 + (c.toNat - 48))
    else none

/-- Embeds Python `int(field)` restricted to plain digit strings. -/
def parseNatDigits : List Char → Option Nat
  | [] => none
  | cs => digitsToNat cs 0

/-- Embeds `hour, minute = map(int, schedule_time.split(':'))` followed by the
range validation that `replace` performs; `none` stands for the raised
`ValueError`. -/
def parseScheduleTime (s : String) : Option (Nat × Nat) :=
  match splitOnColon s.toList with
  | [hs, ms] =>
    match parseNatDigits hs, parseNatDigits ms with
    | some h, some m => if h < 24 ∧ m < 60 then some (h, m) else none
    | _, _ => none
  | _ => none

/-! ### Data model -/

/-- The four recurrence kinds stored in `frequency_type`. -/
inductive Frequency
  | once
  | daily
  | weekly
  | monthly
deriving DecidableEq

/-- A row of the `agent_schedules` table, restricted to the fields the
scheduling engine reads. -/
structure Schedule where
  agent_id : Nat
  schedule_time : String
  frequency_type : Frequency
  day_of_week : Option Nat
  day_of_month : Option Nat
  is_active : Bool
  next_run_at : Option DateTime
  last_run_at : Option DateTime
deriving DecidableEq

/-- A row of the `agents` table, restricted to the fields the Action
Dispatcher reads: `is_active` (default `True` in the source's
`agent.get('is_active', True)`) and whether `config` holds a
`gmail_refresh_token`. -/
structure Agent where
  is_active : Bool
  has_gmail_refresh_token : Bool
deriving DecidableEq

instance {α : Type} [DecidableEq α] : DecidableEq (Except Unit α) := fun x y =>
  match x, y with
  | .error a, .error b => isTrue (by cases a; cases b; rfl)
  | .ok a, .ok b =>
    if h : a = b then isTrue (by rw [h]) else isFalse (fun hc => h (Except.ok.inj hc))
  | .error _, .ok _ => isFalse (fun hc => Except.noConfusion hc)
  | .ok _, .error _ => isFalse (fun hc => Except.noConfusion hc)

/-! ### Recurrence calculators

Each Python calculator reads the ambient clock via `datetime.now(timezone.utc)`;
the embedding passes that instant explicitly as `now`. -/

/-- The fixed owner-local offset used by `agentsdr/orgs/routes.py`:
`IST_OFFSET = timedelta(hours=5, minutes=30)`, i.e. 330 minutes. -/
def istOffsetMinutes : Nat := 330

/-- Embeds `calculate_next_run_time` of `agentsdr/orgs/routes.py` (the
creation-time calculator).  `none` is a raised exception: parse failure,
`replace` with an invalid day, or arithmetic on a missing
`day_of_week` / `day_of_month`. -/
def routesCalc (schedule_time : String) (freq : Frequency)
    (day_of_week day_of_month : Option Nat) (one_time_datetime : Option DateTime)
    (now : DateTime) : Option DateTime :=
  match freq with
  | .once =>
    match one_time_datetime with
    | some t => some t
    | none => some (addMinutes now 60)
  | .daily =>
    match parseScheduleTime schedule_time with
    | none => none
    | some (h, m) =>
      let nowLocal := addMinutes now istOffsetMinutes
      let nextRunLocal := replaceTime nowLocal h m
      let nextRunLocal :=
        if toSec nextRunLocal ≤ toSec nowLocal then addDays nextRunLocal 1 else nextRunLocal
      some (subMinutes nextRunLocal istOffsetMinutes)
  | .weekly =>
    match parseScheduleTime schedule_time with
    | none => none
    | some (h, m) =>
      match day_of_week with
      | none => none
      | some dow =>
        let nowLocal := addMinutes now istOffsetMinutes
        let nextRunLocal := replaceTime nowLocal h m
        let currentWeekday := weekday nowLocal + 1
        let daysUntilTarget : Int := ((dow : Int) - (currentWeekday : Int)) % 7
        let daysUntilTarget :=
          if daysUntilTarget = 0 ∧ toSec nextRunLocal ≤ toSec nowLocal then 7
          else daysUntilTarget
        some (subMinutes (addDays nextRunLocal daysUntilTarget.toNat) istOffsetMinutes)
  | .monthly =>
    match parseScheduleTime schedule_time with
    | none => none
    | some (h, m) =>
      match day_of_month with
      | none => none
      | some dom =>
        let nowLocal := addMinutes now istOffsetMinutes
        let nextRunLocal := replaceTime nowLocal h m
        if nowLocal.day < dom then
          (replaceDay nextRunLocal dom).map (subMinutes · istOffsetMinutes)
        else if nowLocal.day = dom ∧ toSec nowLocal < toSec nextRunLocal then
          (replaceDay nextRunLocal dom).map (subMinutes · istOffsetMinutes)
        else if nowLocal.month = 12 then
          (replaceDate nextRunLocal (nowLocal.year + 1) 1 (min dom 31)).map
            (subMinutes · istOffsetMinutes)
        else
          let maxDay := daysInMonth nowLocal.year (nowLocal.month + 1)
          (replaceDate nextRunLocal nowLocal.year (nowLocal.month + 1) (min dom maxDay)).map
            (subMinutes · istOffsetMinutes)

/-- Embeds `SchedulerService._calculate_next_run_time` of
`agentsdr/services/scheduler_service.py` (poller post-execution calculator).
`Except.error ()` is a raised exception (this function has no local
`try`), `.ok none` means a one-time schedule. -/
def serviceCalc (s : Schedule) (now : DateTime) : Except Unit (Option DateTime) :=
  match s.frequency_type with
  | .once => .ok none
  | freq =>
    match parseScheduleTime s.schedule_time with
    | none => .error ()
    | some (h, m) =>
      match freq with
      | .once => .ok none
      | .daily => .ok (some (addDays (replaceTime now h m) 1))
      | .weekly => .ok (some (addDays (replaceTime now h m) 7))
      | .monthly =>
        if now.month = 12 then
          match replaceDate (replaceTime now h m) (now.year + 1) 1 now.day with
          | some t => .ok (some t)
          | none => .error ()
        else
          let maxDay := daysInMonth now.year (now.month + 1)
          let day := min (s.day_of_month.getD now.day) maxDay
          match replaceDate (replaceTime now h m) now.year (now.month + 1) day with
          | some t => .ok (some t)
          | none => .error ()

/-- Embeds `_calculate_next_run_time` of `agentsdr/orgs/scheduler_webhook.py`.
The whole body is wrapped in `try ... except: return None`, so every raising
path collapses to `none`; a `monthly` frequency matches none of the branches
and falls into the `else` default, which behaves like `daily`. -/
def webhookCalc (s : Schedule) (now : DateTime) : Option DateTime :=
  match s.frequency_type with
  | .once => none
  | freq =>
    match parseScheduleTime s.schedule_time with
    | none => none
    | some (h, m) =>
      match freq with
      | .once => none
      | .daily => some (addDays (replaceTime now h m) 1)
      | .weekly => some (addDays (replaceTime now h m) 7)
      | .monthly => some (addDays (replaceTime now h m) 1)

/-- Embeds `calculate_next_run_time` of `enhanced_scheduler.py` (standalone
CLI poller); identical to the service calculator except in the monthly
branch: `day_of_month` is read only in the non-December case
(`min(day_of_month, max_day)`, a `TypeError` when it is `None`), while the
December case returns `now.replace(year+1, month=1, hour, minute)` without
reading `day_of_month` at all. -/
def enhancedCalc (s : Schedule) (now : DateTime) : Except Unit (Option DateTime) :=
  match s.frequency_type with
  | .once => .ok none
  | freq =>
    match parseScheduleTime s.schedule_time with
    | none => .error ()
    | some (h, m) =>
      match freq with
      | .once => .ok none
      | .daily => .ok (some (addDays (replaceTime now h m) 1))
      | .weekly => .ok (some (addDays (replaceTime now h m) 7))
      | .monthly =>
        if now.month = 12 then
          match replaceDate (replaceTime now h m) (now.year + 1) 1 now.day with
          | some t => .ok (some t)
          | none => .error ()
        else
          match s.day_of_month with
          | none => .error ()
          | some dom =>
            let maxDay := daysInMonth now.year (now.month + 1)
            match replaceDate (replaceTime now h m) now.year (now.month + 1) (min dom maxDay) with
            | some t => .ok (some t)
            | none => .error ()

/-! ### Due-set selection

Both trigger surfaces first query `agent_schedules` with
`.eq('is_active', True)` and then apply a per-row due test against `now`. -/

/-- Embeds the due filter inside
`SchedulerService._check_and_execute_schedules`: within ±300 s of
`next_run_at`, and, when `last_run_at` is set, strictly more than 600 s
since the last run. -/
def pollerIsDue (s : Schedule) (now : DateTime) : Bool :=
  match s.next_run_at with
  | none => false
  | some nextRun =>
    let timeDiff := timeDiffSec nextRun now
    if -300 ≤ timeDiff ∧ timeDiff ≤ 300 then
      match s.last_run_at with
      | some lastRun => decide (600 < timeDiffSec now lastRun)
      | none => true
    else false

/-- Embeds `_is_schedule_due` of `agentsdr/orgs/scheduler_webhook.py`:
within ±300 s of `next_run_at`, and not excluded by the cooldown test
`(now - last_run).total_seconds() < 600`. -/
def webhookIsDue (s : Schedule) (now : DateTime) : Bool :=
  match s.next_run_at with
  | none => false
  | some nextRun =>
    let timeDiff := timeDiffSec nextRun now
    if -300 ≤ timeDiff ∧ timeDiff ≤ 300 then
      match s.last_run_at with
      | some lastRun => !decide (timeDiffSec now lastRun < 600)
      | none => true
    else false

/-- The poller's due set: the active-row query composed with the due filter. -/
def pollerDueSet (rows : List Schedule) (now : DateTime) : List Schedule :=
  (rows.filter (·.is_active)).filter (fun s => pollerIsDue s now)

/-- The webhook's due set: the active-row query composed with
`_is_schedule_due`. -/
def webhookDueSet (rows : List Schedule) (now : DateTime) : List Schedule :=
  (rows.filter (·.is_active)).filter (fun s => webhookIsDue s now)

/-- Specification-side due predicate (follows the spec's wording):
`next_run_at` present and within 300 s of `now` in either direction, and
either never run, or strictly more than 600 s (10 minutes) since
`last_run_at`.  `is_active` is required by the enclosing query. -/
def DueStrictCooldown (s : Schedule) (now : DateTime) : Prop :=
  ∃ nextRun, s.next_run_at = some nextRun
    ∧ -300 ≤ timeDiffSec nextRun now ∧ timeDiffSec nextRun now ≤ 300
    ∧ (s.last_run_at = none
        ∨ ∃ lastRun, s.last_run_at = some lastRun ∧ 600 < timeDiffSec now lastRun)

/-- Variant of the specification-side due predicate with a non-strict
cooldown bound: at least 600 s since `last_run_at`. -/
def DueLaxCooldown (s : Schedule) (now : DateTime) : Prop :=
  ∃ nextRun, s.next_run_at = some nextRun
    ∧ -300 ≤ timeDiffSec nextRun now ∧ timeDiffSec nextRun now ≤ 300
    ∧ (s.last_run_at = none
        ∨ ∃ lastRun, s.last_run_at = some lastRun ∧ 600 ≤ timeDiffSec now lastRun)

/-! ### Post-execution run-state update and the Action Dispatcher -/

/-- Embeds `SchedulerService._update_schedule_after_run`.  Its own
`try`/`except` swallows a raising calculator, in which case the row is not
updated at all; a `None` calculator result sets `is_active = False`
(`next_run_at` is left in place). -/
def serviceUpdateAfterRun (s : Schedule) (now : DateTime) : Schedule :=
  match serviceCalc s now with
  | .error _ => s
  | .ok (some t) => { s with last_run_at := some now, next_run_at := some t }
  | .ok none => { s with last_run_at := some now, is_active := false }

/-- Embeds `_update_schedule_after_run` of the webhook module; its
calculator never raises (it returns `None` instead). -/
def webhookUpdateAfterRun (s : Schedule) (now : DateTime) : Schedule :=
  match webhookCalc s now with
  | some t => { s with last_run_at := some now, next_run_at := some t }
  | none => { s with last_run_at := some now, is_active := false }

/-- Embeds `SchedulerService._execute_schedule`.  Inputs that the Python code
obtains from collaborators are passed explicitly: the agent-table lookup
result, whether `fetch_and_summarize_emails` returned a non-empty list, and
whether `send_email_summary` succeeded.  Returns the boolean outcome and the
resulting state of the schedule row. -/
def serviceExecuteSchedule (agentLookup : Option Agent) (fetchNonempty sendOk : Bool)
    (s : Schedule) (now : DateTime) : Bool × Schedule :=
  match agentLookup with
  | none => (false, s)
  | some agent =>
    if agent.is_active = false then (false, s)
    else if agent.has_gmail_refresh_token = false then (false, s)
    else if fetchNonempty = false then (true, serviceUpdateAfterRun s now)
    else if sendOk then (true, serviceUpdateAfterRun s now)
    else (false, s)

/-- Embeds `_execute_schedule` of the webhook module (same control flow as
the service's, but updating through the webhook's calculator). -/
def webhookExecuteSchedule (agentLookup : Option Agent) (fetchNonempty sendOk : Bool)
    (s : Schedule) (now : DateTime) : Bool × Schedule :=
  match agentLookup with
  | none => (false, s)
  | some agent =>
    if agent.is_active = false then (false, s)
    else if agent.has_gmail_refresh_token = false then (false, s)
    else if fetchNonempty = false then (true, webhookUpdateAfterRun s now)
    else if sendOk then (true, webhookUpdateAfterRun s now)
    else (false, s)

/-! ### The webhook trigger surface (`trigger_schedules`) -/

/-- The wire-level request data the handler reads: the `X-API-Key` header
and the JSON body (`bodyIsJson = false` embeds a request whose body cannot
be parsed as JSON, on which `request.json` raises). -/
structure WebhookRequest where
  headerKey : Option String
  bodyIsJson : Bool
  jsonApiKey : Option String
deriving DecidableEq

/-- Embeds `request.headers.get('X-API-Key') or request.json.get('api_key')`:
Python `or` falls through on `None` and on the empty string, and reading the
body raises when it is not JSON (`Except.error`). -/
def presentedKey (req : WebhookRequest) : Except Unit (Option String) :=
  let fromBody : Except Unit (Option String) :=
    if req.bodyIsJson then .ok req.jsonApiKey else .error ()
  match req.headerKey with
  | some k => if k = "" then fromBody else .ok (some k)
  | none => fromBody

/-- The hard-coded fallback in
`current_app.config.get('SCHEDULER_WEBHOOK_KEY', 'agentsdr-scheduler-2024')`. -/
def defaultWebhookKey : String := "agentsdr-scheduler-2024"

/-- One pass of the webhook loop: how many due schedules executed
successfully.  `agents` is the `agents` table keyed by `agent_id`;
`fetchNonempty` and `sendOk` give each schedule's collaborator outcomes. -/
def webhookPassCount (rows : List Schedule) (agents : Nat → Option Agent)
    (fetchNonempty sendOk : Schedule → Bool) (now : DateTime) : Nat :=
  ((rows.filter (·.is_active)).filter (fun s =>
    webhookIsDue s now
      && (webhookExecuteSchedule (agents s.agent_id) (fetchNonempty s) (sendOk s) s now).1)).length

/-- One pass of the webhook loop: the resulting table state.  Each row is
transformed only by its own execution, so the loop is a pointwise map. -/
def webhookPassRows (rows : List Schedule) (agents : Nat → Option Agent)
    (fetchNonempty sendOk : Schedule → Bool) (now : DateTime) : List Schedule :=
  rows.map (fun s =>
    if s.is_active ∧ webhookIsDue s now then
      (webhookExecuteSchedule (agents s.agent_id) (fetchNonempty s) (sendOk s) s now).2
    else s)

/-- The three response shapes of the `POST /webhook/trigger-schedules`
handler. -/
inductive HttpResponse
  | ok (executedSchedules : Nat) (timestamp : DateTime)
  | unauthorized
  | serverError
deriving DecidableEq

/-- Embeds `trigger_schedules` of `agentsdr/orgs/scheduler_webhook.py`:
credential check first (`401` before any table access), then one pass over
the active schedules, `200` with the executed count and the `now` timestamp;
an exception anywhere in the body (here: an unreadable JSON body) is caught
by the outer `try` and answered with `500`.  The returned list is the state
of the `agent_schedules` table after the request. -/
def triggerSchedules (configKey : Option String) (req : WebhookRequest)
    (rows : List Schedule) (agents : Nat → Option Agent)
    (fetchNonempty sendOk : Schedule → Bool) (now : DateTime) :
    HttpResponse × List Schedule :=
  match presentedKey req with
  | .error _ => (.serverError, rows)
  | .ok apiKey =>
    let expectedKey := configKey.getD defaultWebhookKey
    if apiKey ≠ some expectedKey then (.unauthorized, rows)
    else
      (.ok (webhookPassCount rows agents fetchNonempty sendOk now) now,
        webhookPassRows rows agents fetchNonempty sendOk now)

/-! ### Calendar arithmetic lemmas -/

theorem daysInMonth_pos (y m : Nat) (h1 : 1 ≤ m) (h12 : m ≤ 12) : 1 ≤ daysInMonth y m := by
  rcases Bool.eq_false_or_eq_true (isLeap y) with hy | hy <;>
    interval_cases m <;> simp [daysInMonth, hy]

theorem daysInMonth_le (y m : Nat) : daysInMonth y m ≤ 31 := by
  unfold daysInMonth
  split
  · split <;> omega
  · split
    · omega
    · split <;> omega

theorem daysBeforeMonth_succ (y m : Nat) (h1 : 1 ≤ m) (h12 : m ≤ 12) :
    daysBeforeMonth y (m + 1) = daysBeforeMonth y m + daysInMonth y m := by
  rcases Bool.eq_false_or_eq_true (isLeap y) with hy | hy <;>
    interval_cases m <;> simp [daysBeforeMonth, daysInMonth, hy]

theorem daysBeforeMonth_one (y : Nat) : daysBeforeMonth y 1 = 0 := by
  simp [daysBeforeMonth]

theorem daysBeforeMonth_twelve (y : Nat) :
    daysBeforeMonth y 12 = 334 + (if isLeap y then 1 else 0) := by
  rcases Bool.eq_false_or_eq_true (isLeap y) with hy | hy <;> simp [daysBeforeMonth, hy]

theorem daysBeforeYear_succ (y : Nat) :
    daysBeforeYear (y + 1) = daysBeforeYear y + (if isLeap y then 366 else 365) := rfl

theorem timeOfDay_lt (d : DateTime) (h : d.Valid) :
    d.hour * 3600 + d.minute * 60 + d.second < 86400 := by
  obtain ⟨-, -, -, -, hh, hm, hs⟩ := h
  omega

theorem toSec_lt_of_toDays_lt (a b : DateTime) (ha : a.Valid)
    (hd : toDays a < toDays b) : toSec a < toSec b := by
  have ht := timeOfDay_lt a ha
  unfold toSec
  calc toDays a * 86400 + (a.hour * 3600 + a.minute * 60 + a.second)
      < (toDays a + 1) * 86400 := by omega
    _ ≤ toDays b * 86400 := Nat.mul_le_mul_right 86400 hd
    _ ≤ toDays b * 86400 + (b.hour * 3600 + b.minute * 60 + b.second) := Nat.le_add_right _ _

theorem succDay_hour (d : DateTime) : (succDay d).hour = d.hour := by
  unfold succDay
  split
  · rfl
  · split <;> rfl

theorem succDay_minute (d : DateTime) : (succDay d).minute = d.minute := by
  unfold succDay
  split
  · rfl
  · split <;> rfl

theorem succDay_second (d : DateTime) : (succDay d).second = d.second := by
  unfold succDay
  split
  · rfl
  · split <;> rfl

theorem toDays_succDay (d : DateTime) (h : d.Valid) : toDays (succDay d) = toDays d + 1 := by
  obtain ⟨h1, h2, h3, h4, -, -, -⟩ := h
  unfold succDay
  split
  · unfold toDays
    dsimp only
    omega
  · split
    · rename_i hlt hm
      unfold toDays
      dsimp only
      rw [daysBeforeMonth_succ d.year d.month h1 (by omega)]
      omega
    · rename_i hlt hm
      have hm12 : d.month = 12 := by omega
      rw [hm12] at hlt h4
      have h31 : daysInMonth d.year 12 = 31 := by
        rcases Bool.eq_false_or_eq_true (isLeap d.year) with hy | hy <;> simp [daysInMonth, hy]
      have hday : d.day = 31 := by omega
      unfold toDays
      dsimp only
      rw [daysBeforeYear_succ, daysBeforeMonth_one, hm12, hday,
        daysBeforeMonth_twelve]
      rcases Bool.eq_false_or_eq_true (isLeap d.year) with hy | hy <;> simp [hy]

theorem succDay_valid (d : DateTime) (h : d.Valid) : (succDay d).Valid := by
  obtain ⟨h1, h2, h3, h4, h5, h6, h7⟩ := h
  unfold succDay
  split
  · exact ⟨h1, h2, by dsimp only; omega, by dsimp only; omega, h5, h6, h7⟩
  · split
    · rename_i hlt hm
      have hp := daysInMonth_pos d.year (d.month + 1) (by omega) (by omega)
      exact ⟨by dsimp only; omega, by dsimp only; omega, le_refl 1,
        by dsimp only; omega, h5, h6, h7⟩
    · have hp := daysInMonth_pos (d.year + 1) 1 (by omega) (by omega)
      exact ⟨by dsimp only; omega, by dsimp only; omega, le_refl 1,
        by dsimp only; omega, h5, h6, h7⟩

theorem toSec_succDay (d : DateTime) (h : d.Valid) : toSec (succDay d) = toSec d + 86400 := by
  unfold toSec
  rw [toDays_succDay d h, succDay_hour, succDay_minute, succDay_second]
  ring

theorem predDay_hour (d : DateTime) : (predDay d).hour = d.hour := by
  unfold predDay
  split
  · rfl
  · split <;> rfl

theorem predDay_minute (d : DateTime) : (predDay d).minute = d.minute := by
  unfold predDay
  split
  · rfl
  · split <;> rfl

theorem predDay_second (d : DateTime) : (predDay d).second = d.second := by
  unfold predDay
  split
  · rfl
  · split <;> rfl

theorem toDays_predDay (d : DateTime) (h : d.Valid) (hd : 1 ≤ toDays d) :
    toDays (predDay d) + 1 = toDays d := by
  obtain ⟨h1, h2, h3, h4, -, -, -⟩ := h
  unfold predDay
  split
  · unfold toDays
    dsimp only
    omega
  · split
    · rename_i hgt hm
      have hday : d.day = 1 := by omega
      unfold toDays
      dsimp only
      have hrw : d.month - 1 + 1 = d.month := by omega
      have hsucc := daysBeforeMonth_succ d.year (d.month - 1) (by omega) (by omega)
      rw [hrw] at hsucc
      have hpos := daysInMonth_pos d.year (d.month - 1) (by omega) (by omega)
      omega
    · rename_i hgt hm
      have hday : d.day = 1 := by omega
      have hmon : d.month = 1 := by omega
      have hy : 1 ≤ d.year := by
        by_contra hy0
        have hz : d.year = 0 := by omega
        unfold toDays at hd
        rw [hz, hmon, hday, daysBeforeMonth_one] at hd
        simp [daysBeforeYear] at hd
      unfold toDays
      dsimp only
      have hrw : d.year - 1 + 1 = d.year := by omega
      have hys := daysBeforeYear_succ (d.year - 1)
      rw [hrw] at hys
      rw [hmon, hday, daysBeforeMonth_one, daysBeforeMonth_twelve, hys]
      rcases Bool.eq_false_or_eq_true (isLeap (d.year - 1)) with hly | hly <;> simp [hly]

theorem predDay_valid (d : DateTime) (h : d.Valid) : (predDay d).Valid := by
  obtain ⟨h1, h2, h3, h4, h5, h6, h7⟩ := h
  unfold predDay
  split
  · exact ⟨h1, h2, by dsimp only; omega, by dsimp only; omega, h5, h6, h7⟩
  · split
    · rename_i hgt hm
      have hp := daysInMonth_pos d.year (d.month - 1) (by omega) (by omega)
      exact ⟨by dsimp only; omega, by dsimp only; omega, by dsimp only; omega,
        by dsimp only; exact le_refl _, h5, h6, h7⟩
    · have h31 : daysInMonth (d.year - 1) 12 = 31 := by
        rcases Bool.eq_false_or_eq_true (isLeap (d.year - 1)) with hy | hy <;>
          simp [daysInMonth, hy]
      exact ⟨by dsimp only; omega, by dsimp only; omega, by dsimp only; omega,
        by dsimp only; omega, h5, h6, h7⟩

theorem toSec_predDay (d : DateTime) (h : d.Valid) (hd : 1 ≤ toDays d) :
    toSec (predDay d) + 86400 = toSec d := by
  unfold toSec
  rw [predDay_hour, predDay_minute, predDay_second]
  have := toDays_predDay d h hd
  omega

theorem addDays_valid (d : DateTime) (n : Nat) (h : d.Valid) : (addDays d n).Valid := by
  induction n with
  | zero => exact h
  | succ n ih => exact succDay_valid _ ih

theorem toSec_addDays (d : DateTime) (n : Nat) (h : d.Valid) :
    toSec (addDays d n) = toSec d + n * 86400 := by
  induction n with
  | zero => simp [addDays]
  | succ n ih =>
    have hv := addDays_valid d n h
    show toSec (succDay (addDays d n)) = _
    rw [toSec_succDay _ hv, ih]
    ring

theorem toDays_addDays (d : DateTime) (n : Nat) (h : d.Valid) :
    toDays (addDays d n) = toDays d + n := by
  induction n with
  | zero => rfl
  | succ n ih =>
    have hv := addDays_valid d n h
    show toDays (succDay (addDays d n)) = _
    rw [toDays_succDay _ hv, ih]
    omega

theorem toDays_replaceTime (d : DateTime) (h m : Nat) :
    toDays (replaceTime d h m) = toDays d := rfl

theorem toSec_replaceTime (d : DateTime) (h m : Nat) :
    toSec (replaceTime d h m) = toDays d * 86400 + (h * 3600 + m * 60) := by
  unfold toSec replaceTime toDays
  dsimp only
  omega

theorem replaceTime_valid (d : DateTime) (h m : Nat) (hh : h < 24) (hm : m < 60)
    (hv : d.Valid) : (replaceTime d h m).Valid :=
  ⟨hv.1, hv.2.1, hv.2.2.1, hv.2.2.2.1, hh, hm, by show (0 : Nat) < 60; omega⟩

theorem addMinutes_valid_toSec (d : DateTime) (k : Nat) (hv : d.Valid) (hk : k < 1440) :
    (addMinutes d k).Valid ∧ toSec (addMinutes d k) = toSec d + k * 60 := by
  obtain ⟨h1, h2, h3, h4, h5, h6, h7⟩ := hv
  unfold addMinutes
  split
  · rename_i ht
    refine ⟨⟨h1, h2, h3, h4, by dsimp only; omega, by dsimp only; omega, h7⟩, ?_⟩
    unfold toSec toDays
    dsimp only
    omega
  · rename_i ht
    have hd2 : DateTime.Valid { d with hour := (d.hour * 60 + d.minute + k - 1440) / 60, minute := (d.hour * 60 + d.minute + k - 1440) % 60 } :=
      ⟨h1, h2, h3, h4, by dsimp only; omega, by dsimp only; omega, h7⟩
    refine ⟨succDay_valid _ hd2, ?_⟩
    rw [toSec_succDay _ hd2]
    unfold toSec toDays
    dsimp only
    omega

theorem subMinutes_valid_toSec (d : DateTime) (k : Nat) (hv : d.Valid) (hk : k < 1440)
    (hks : k * 60 ≤ toSec d) :
    (subMinutes d k).Valid ∧ toSec (subMinutes d k) + k * 60 = toSec d := by
  obtain ⟨h1, h2, h3, h4, h5, h6, h7⟩ := hv
  unfold subMinutes
  split
  · rename_i ht
    refine ⟨⟨h1, h2, h3, h4, by dsimp only; omega, by dsimp only; omega, h7⟩, ?_⟩
    unfold toSec toDays
    dsimp only
    omega
  · rename_i ht
    have hd2 : DateTime.Valid { d with hour := (d.hour * 60 + d.minute + 1440 - k) / 60, minute := (d.hour * 60 + d.minute + 1440 - k) % 60 } :=
      ⟨h1, h2, h3, h4, by dsimp only; omega, by dsimp only; omega, h7⟩
    have htd : 1 ≤ toDays { d with hour := (d.hour * 60 + d.minute + 1440 - k) / 60, minute := (d.hour * 60 + d.minute + 1440 - k) % 60 } := by
      unfold toSec at hks
      unfold toDays at hks ⊢
      dsimp only
      omega
    have hpd := toSec_predDay _ hd2 htd
    refine ⟨predDay_valid _ hd2, ?_⟩
    unfold toSec toDays at hpd ⊢
    dsimp only at hpd ⊢
    unfold toSec toDays at hks
    omega

theorem replaceDate_eq_some (d : DateTime) {y mo da : Nat} {t : DateTime}
    (h : replaceDate d y mo da = some t) :
    t = { d with year := y, month := mo, day := da }
      ∧ 1 ≤ mo ∧ mo ≤ 12 ∧ 1 ≤ da ∧ da ≤ daysInMonth y mo := by
  unfold replaceDate at h
  split at h
  · rename_i hc
    cases h
    exact ⟨rfl, hc.1, hc.2.1, hc.2.2.1, hc.2.2.2⟩
  · cases h

theorem replaceDate_valid (d : DateTime) {y mo da : Nat} {t : DateTime} (hv : d.Valid)
    (h : replaceDate d y mo da = some t) : t.Valid := by
  obtain ⟨ht, hmo1, hmo2, hda1, hda2⟩ := replaceDate_eq_some d h
  subst ht
  exact ⟨hmo1, hmo2, hda1, hda2, hv.2.2.2.2.1, hv.2.2.2.2.2.1, hv.2.2.2.2.2.2⟩

theorem toDays_replaceDate (d : DateTime) {y mo da : Nat} {t : DateTime}
    (h : replaceDate d y mo da = some t) :
    toDays t = daysBeforeYear y + daysBeforeMonth y mo + (da - 1) := by
  obtain ⟨ht, -⟩ := replaceDate_eq_some d h
  subst ht
  rfl

theorem parseScheduleTime_bounds {s : String} {h m : Nat}
    (hp : parseScheduleTime s = some (h, m)) : h < 24 ∧ m < 60 := by
  unfold parseScheduleTime at hp
  split at hp
  · split at hp
    · split at hp
      · rename_i hc
        cases hp
        exact hc
      · cases hp
    · cases hp
  · cases hp

/-! ### Due-set characterization lemmas -/

theorem pollerIsDue_iff (s : Schedule) (now : DateTime) :
    pollerIsDue s now = true ↔ DueStrictCooldown s now := by
  unfold pollerIsDue DueStrictCooldown
  cases hnr : s.next_run_at with
  | none => simp
  | some nextRun =>
    cases hlr : s.last_run_at with
    | none =>
      dsimp only
      split
      · rename_i hcond
        simp [hcond.1, hcond.2]
      · rename_i hcond
        simp only [not_and_or, not_le] at hcond
        constructor
        · intro habs
          exact absurd habs (by simp)
        · rintro ⟨nr, hnr2, ha, hb, -⟩
          cases hnr2
          rcases hcond with hc | hc <;> omega
    | some lastRun =>
      dsimp only
      split
      · rename_i hcond
        simp only [decide_eq_true_eq]
        constructor
        · intro hgt
          exact ⟨nextRun, rfl, hcond.1, hcond.2, Or.inr ⟨lastRun, rfl, hgt⟩⟩
        · rintro ⟨nr, hnr2, -, -, hcool⟩
          cases hnr2
          rcases hcool with hnone | ⟨lr, hlr2, hgt⟩
          · cases hnone
          · cases hlr2
            exact hgt
      · rename_i hcond
        simp only [not_and_or, not_le] at hcond
        constructor
        · intro habs
          exact absurd habs (by simp)
        · rintro ⟨nr, hnr2, ha, hb, -⟩
          cases hnr2
          rcases hcond with hc | hc <;> omega

theorem webhookIsDue_iff (s : Schedule) (now : DateTime) :
    webhookIsDue s now = true ↔ DueLaxCooldown s now := by
  unfold webhookIsDue DueLaxCooldown
  cases hnr : s.next_run_at with
  | none => simp
  | some nextRun =>
    cases hlr : s.last_run_at with
    | none =>
      dsimp only
      split
      · rename_i hcond
        simp [hcond.1, hcond.2]
      · rename_i hcond
        simp only [not_and_or, not_le] at hcond
        constructor
        · intro habs
          exact absurd habs (by simp)
        · rintro ⟨nr, hnr2, ha, hb, -⟩
          cases hnr2
          rcases hcond with hc | hc <;> omega
    | some lastRun =>
      dsimp only
      split
      · rename_i hcond
        simp only [Bool.not_eq_true', decide_eq_false_iff_not, not_lt]
        constructor
        · intro hge
          exact ⟨nextRun, rfl, hcond.1, hcond.2, Or.inr ⟨lastRun, rfl, hge⟩⟩
        · rintro ⟨nr, hnr2, -, -, hcool⟩
          cases hnr2
          rcases hcool with hnone | ⟨lr, hlr2, hge⟩
          · cases hnone
          · cases hlr2
            exact hge
      · rename_i hcond
        simp only [not_and_or, not_le] at hcond
        constructor
        · intro habs
          exact absurd habs (by simp)
        · rintro ⟨nr, hnr2, ha, hb, -⟩
          cases hnr2
          rcases hcond with hc | hc <;> omega

theorem not_mem_dueSets_of_inactive (x : Schedule) (hx : x.is_active = false)
    (rows : List Schedule) (now : DateTime) :
    x ∉ pollerDueSet rows now ∧ x ∉ webhookDueSet rows now := by
  constructor <;> intro hmem
  · have hact := (List.mem_filter.mp (List.mem_filter.mp hmem).1).2
    rw [hx] at hact
    cases hact
  · have hact := (List.mem_filter.mp (List.mem_filter.mp hmem).1).2
    rw [hx] at hact
    cases hact

/-! ### Strictness helper lemmas for the recurrence calculators -/

theorem toSec_now_lt_addDays_replaceTime (now : DateTime) (hv : now.Valid) (h m k : Nat)
    (hh : h < 24) (hm : m < 60) (hk : 1 ≤ k) :
    toSec now < toSec (addDays (replaceTime now h m) k) := by
  have hrv := replaceTime_valid now h m hh hm hv
  rw [toSec_addDays (replaceTime now h m) k hrv, toSec_replaceTime]
  have htod := timeOfDay_lt now hv
  have hns : toSec now
      = toDays now * 86400 + (now.hour * 3600 + now.minute * 60 + now.second) := rfl
  omega

theorem ist_offset_seconds : istOffsetMinutes * 60 = 19800 := by decide

theorem addDays_zero (d : DateTime) : addDays d 0 = d := rfl

theorem routes_subMinutes_strict (now X : DateTime) (hX : X.Valid)
    (hgt : toSec now + 19800 < toSec X) :
    toSec now < toSec (subMinutes X istOffsetMinutes) := by
  have hpre : istOffsetMinutes * 60 ≤ toSec X := by
    rw [ist_offset_seconds]
    omega
  have hsub := subMinutes_valid_toSec X istOffsetMinutes hX (by decide) hpre
  have h2 := hsub.2
  rw [ist_offset_seconds] at h2
  omega

theorem subMinutes_toSec_eq (X : DateTime) (hX : X.Valid) (hpre : 19800 ≤ toSec X) :
    toSec (subMinutes X istOffsetMinutes) + 19800 = toSec X := by
  have hpre2 : istOffsetMinutes * 60 ≤ toSec X := by
    rw [ist_offset_seconds]
    omega
  have hsub := subMinutes_valid_toSec X istOffsetMinutes hX (by decide) hpre2
  have h2 := hsub.2
  rw [ist_offset_seconds] at h2
  exact h2

theorem toDays_lt_next_month (now : DateTime) (hv : now.Valid) (base : DateTime)
    {da : Nat} {Y : DateTime}
    (hY : replaceDate base now.year (now.month + 1) da = some Y) :
    toDays now < toDays Y := by
  obtain ⟨-, hmo1, hmo2, hda1, hda2⟩ := replaceDate_eq_some base hY
  have htd := toDays_replaceDate base hY
  obtain ⟨hm1, hm2, hd1, hd2, -, -, -⟩ := hv
  have hsucc := daysBeforeMonth_succ now.year now.month hm1 hm2
  rw [htd]
  unfold toDays
  omega

theorem toDays_lt_year_rollover (now : DateTime) (hv : now.Valid) (base : DateTime)
    {da : Nat} {Y : DateTime} (h12 : now.month = 12)
    (hY : replaceDate base (now.year + 1) 1 da = some Y) :
    toDays now < toDays Y := by
  obtain ⟨-, -, -, hda1, -⟩ := replaceDate_eq_some base hY
  have htd := toDays_replaceDate base hY
  obtain ⟨hm1, hm2, hd1, hd2, -, -, -⟩ := hv
  have h31 : daysInMonth now.year 12 = 31 := by
    rcases Bool.eq_false_or_eq_true (isLeap now.year) with hy | hy <;> simp [daysInMonth, hy]
  rw [h12, h31] at hd2
  rw [htd, daysBeforeMonth_one, daysBeforeYear_succ]
  unfold toDays
  rw [h12, daysBeforeMonth_twelve]
  rcases Bool.eq_false_or_eq_true (isLeap now.year) with hy | hy <;> simp [hy] <;> omega

/-! ### Equation lemmas for the calculators (one per reachable branch) -/

theorem routesCalc_daily_eq (st : String) (h m : Nat) (dw dm : Option Nat)
    (ot : Option DateTime) (now : DateTime) (hp : parseScheduleTime st = some (h, m)) :
    routesCalc st .daily dw dm ot now
      = some (subMinutes
          (if toSec (replaceTime (addMinutes now istOffsetMinutes) h m)
              ≤ toSec (addMinutes now istOffsetMinutes)
            then addDays (replaceTime (addMinutes now istOffsetMinutes) h m) 1
            else replaceTime (addMinutes now istOffsetMinutes) h m)
          istOffsetMinutes) := by
  unfold routesCalc
  rw [hp]

theorem routesCalc_weekly_eq (st : String) (h m dow : Nat) (dm : Option Nat)
    (ot : Option DateTime) (now : DateTime) (hp : parseScheduleTime st = some (h, m)) :
    routesCalc st .weekly (some dow) dm ot now
      = some (subMinutes
          (addDays (replaceTime (addMinutes now istOffsetMinutes) h m)
            (if ((dow : Int) - ((weekday (addMinutes now istOffsetMinutes) + 1 : Nat) : Int)) % 7 = 0
                ∧ toSec (replaceTime (addMinutes now istOffsetMinutes) h m)
                    ≤ toSec (addMinutes now istOffsetMinutes)
              then (7 : Int)
              else ((dow : Int) - ((weekday (addMinutes now istOffsetMinutes) + 1 : Nat) : Int)) % 7).toNat)
          istOffsetMinutes) := by
  unfold routesCalc
  rw [hp]

theorem routesCalc_monthly_eq (st : String) (h m dom : Nat) (dw : Option Nat)
    (ot : Option DateTime) (now : DateTime) (hp : parseScheduleTime st = some (h, m)) :
    routesCalc st .monthly dw (some dom) ot now
      = (if (addMinutes now istOffsetMinutes).day < dom then
          (replaceDay (replaceTime (addMinutes now istOffsetMinutes) h m) dom).map
            (subMinutes · istOffsetMinutes)
        else if (addMinutes now istOffsetMinutes).day = dom
            ∧ toSec (addMinutes now istOffsetMinutes)
                < toSec (replaceTime (addMinutes now istOffsetMinutes) h m) then
          (replaceDay (replaceTime (addMinutes now istOffsetMinutes) h m) dom).map
            (subMinutes · istOffsetMinutes)
        else if (addMinutes now istOffsetMinutes).month = 12 then
          (replaceDate (replaceTime (addMinutes now istOffsetMinutes) h m)
              ((addMinutes now istOffsetMinutes).year + 1) 1 (min dom 31)).map
            (subMinutes · istOffsetMinutes)
        else
          (replaceDate (replaceTime (addMinutes now istOffsetMinutes) h m)
              (addMinutes now istOffsetMinutes).year ((addMinutes now istOffsetMinutes).month + 1)
              (min dom (daysInMonth (addMinutes now istOffsetMinutes).year
                ((addMinutes now istOffsetMinutes).month + 1)))).map
            (subMinutes · istOffsetMinutes)) := by
  unfold routesCalc
  rw [hp]

theorem routesCalc_parse_fail (st : String) (freq : Frequency) (dw dm : Option Nat)
    (ot : Option DateTime) (now : DateTime) (hf : freq ≠ .once)
    (hp : parseScheduleTime st = none) :
    routesCalc st freq dw dm ot now = none := by
  unfold routesCalc
  cases freq with
  | once => exact absurd rfl hf
  | daily => rw [hp]
  | weekly => rw [hp]
  | monthly => rw [hp]

theorem routesCalc_weekly_nodow (st : String) (h m : Nat) (dm : Option Nat)
    (ot : Option DateTime) (now : DateTime) (hp : parseScheduleTime st = some (h, m)) :
    routesCalc st .weekly none dm ot now = none := by
  unfold routesCalc
  rw [hp]

theorem routesCalc_monthly_nodom (st : String) (h m : Nat) (dw : Option Nat)
    (ot : Option DateTime) (now : DateTime) (hp : parseScheduleTime st = some (h, m)) :
    routesCalc st .monthly dw none ot now = none := by
  unfold routesCalc
  rw [hp]

theorem serviceCalc_daily_eq (s : Schedule) (now : DateTime) (h m : Nat)
    (hf : s.frequency_type = .daily) (hp : parseScheduleTime s.schedule_time = some (h, m)) :
    serviceCalc s now = .ok (some (addDays (replaceTime now h m) 1)) := by
  unfold serviceCalc
  rw [hf, hp]

theorem serviceCalc_weekly_eq (s : Schedule) (now : DateTime) (h m : Nat)
    (hf : s.frequency_type = .weekly) (hp : parseScheduleTime s.schedule_time = some (h, m)) :
    serviceCalc s now = .ok (some (addDays (replaceTime now h m) 7)) := by
  unfold serviceCalc
  rw [hf, hp]

theorem serviceCalc_monthly_eq (s : Schedule) (now : DateTime) (h m : Nat)
    (hf : s.frequency_type = .monthly) (hp : parseScheduleTime s.schedule_time = some (h, m)) :
    serviceCalc s now
      = (if now.month = 12 then
          match replaceDate (replaceTime now h m) (now.year + 1) 1 now.day with
          | some t => .ok (some t)
          | none => .error ()
        else
          match replaceDate (replaceTime now h m) now.year (now.month + 1)
              (min (s.day_of_month.getD now.day) (daysInMonth now.year (now.month + 1))) with
          | some t => .ok (some t)
          | none => .error ()) := by
  unfold serviceCalc
  rw [hf, hp]

theorem serviceCalc_parse_fail (s : Schedule) (now : DateTime) (hf : s.frequency_type ≠ .once)
    (hp : parseScheduleTime s.schedule_time = none) : serviceCalc s now = .error () := by
  unfold serviceCalc
  cases hc : s.frequency_type with
  | once => exact absurd hc hf
  | daily => rw [hp]
  | weekly => rw [hp]
  | monthly => rw [hp]

theorem webhookCalc_daily_eq (s : Schedule) (now : DateTime) (h m : Nat)
    (hf : s.frequency_type = .daily) (hp : parseScheduleTime s.schedule_time = some (h, m)) :
    webhookCalc s now = some (addDays (replaceTime now h m) 1) := by
  unfold webhookCalc
  rw [hf, hp]

theorem webhookCalc_weekly_eq (s : Schedule) (now : DateTime) (h m : Nat)
    (hf : s.frequency_type = .weekly) (hp : parseScheduleTime s.schedule_time = some (h, m)) :
    webhookCalc s now = some (addDays (replaceTime now h m) 7) := by
  unfold webhookCalc
  rw [hf, hp]

theorem enhancedCalc_daily_eq (s : Schedule) (now : DateTime) (h m : Nat)
    (hf : s.frequency_type = .daily) (hp : parseScheduleTime s.schedule_time = some (h, m)) :
    enhancedCalc s now = .ok (some (addDays (replaceTime now h m) 1)) := by
  unfold enhancedCalc
  rw [hf, hp]

theorem enhancedCalc_weekly_eq (s : Schedule) (now : DateTime) (h m : Nat)
    (hf : s.frequency_type = .weekly) (hp : parseScheduleTime s.schedule_time = some (h, m)) :
    enhancedCalc s now = .ok (some (addDays (replaceTime now h m) 7)) := by
  unfold enhancedCalc
  rw [hf, hp]

theorem enhancedCalc_monthly_eq (s : Schedule) (now : DateTime) (h m dom : Nat)
    (hf : s.frequency_type = .monthly) (hd : s.day_of_month = some dom)
    (hp : parseScheduleTime s.schedule_time = some (h, m)) :
    enhancedCalc s now
      = (if now.month = 12 then
          match replaceDate (replaceTime now h m) (now.year + 1) 1 now.day with
          | some t => .ok (some t)
          | none => .error ()
        else
          match replaceDate (replaceTime now h m) now.year (now.month + 1)
              (min dom (daysInMonth now.year (now.month + 1))) with
          | some t => .ok (some t)
          | none => .error ()) := by
  unfold enhancedCalc
  rw [hf, hp, hd]

theorem enhancedCalc_monthly_nodom (s : Schedule) (now : DateTime) (h m : Nat)
    (hf : s.frequency_type = .monthly) (hd : s.day_of_month = none)
    (hp : parseScheduleTime s.schedule_time = some (h, m)) :
    enhancedCalc s now
      = (if now.month = 12 then
          match replaceDate (replaceTime now h m) (now.year + 1) 1 now.day with
          | some t => .ok (some t)
          | none => .error ()
        else .error ()) := by
  unfold enhancedCalc
  rw [hf, hp, hd]

theorem enhancedCalc_parse_fail (s : Schedule) (now : DateTime) (hf : s.frequency_type ≠ .once)
    (hp : parseScheduleTime s.schedule_time = none) : enhancedCalc s now = .error () := by
  unfold enhancedCalc
  cases hc : s.frequency_type with
  | once => exact absurd hc hf
  | daily => rw [hp]
  | weekly => rw [hp]
  | monthly => rw [hp]

/-! ### Claim theorems -/

/-- **C1** (amended).  For every list of schedules and every instant `now`,
the poller's due selection returns exactly the active schedules whose
`next_run_at` is present and within 300 s of `now` and whose last run is
absent or strictly more than 600 s old; the webhook's due selection is the
same except that the cooldown bound is non-strict (at least 600 s since
`last_run_at`).  Each schedule's membership is characterized by its own
fields and `now` alone. -/
theorem due_set_selection_characterization (rows : List Schedule) (now : DateTime)
    (s : Schedule) :
    (s ∈ pollerDueSet rows now ↔ s ∈ rows ∧ s.is_active = true ∧ DueStrictCooldown s now)
      ∧ (s ∈ webhookDueSet rows now ↔ s ∈ rows ∧ s.is_active = true ∧ DueLaxCooldown s now) := by
  constructor
  · unfold pollerDueSet
    rw [List.mem_filter, List.mem_filter, pollerIsDue_iff]
    tauto
  · unfold webhookDueSet
    rw [List.mem_filter, List.mem_filter, webhookIsDue_iff]
    tauto

/-- **C1** counterexample.  A schedule whose `last_run_at` is exactly 600 s
(10 minutes, not more) before `now` and whose `next_run_at` equals `now` is
selected by the webhook's due check, although the claim's condition
(strictly more than 10 minutes elapsed since `last_run_at`) fails. -/
theorem webhook_cooldown_boundary_counterexample :
    (⟨1, "10:00", .daily, none, none, true, some ⟨2, 1, 1, 10, 10, 0⟩,
        some ⟨2, 1, 1, 10, 0, 0⟩⟩ : Schedule) ∈
      webhookDueSet
        [⟨1, "10:00", .daily, none, none, true, some ⟨2, 1, 1, 10, 10, 0⟩,
          some ⟨2, 1, 1, 10, 0, 0⟩⟩]
        ⟨2, 1, 1, 10, 10, 0⟩
    ∧ ¬ DueStrictCooldown
        ⟨1, "10:00", .daily, none, none, true, some ⟨2, 1, 1, 10, 10, 0⟩,
          some ⟨2, 1, 1, 10, 0, 0⟩⟩
        ⟨2, 1, 1, 10, 10, 0⟩ := by
  constructor
  · decide
  · unfold DueStrictCooldown
    rintro ⟨nr, hnr, -, -, hcool⟩
    rcases hcool with hnone | ⟨lr, hlr, hgt⟩
    · cases hnone
    · cases hlr
      revert hgt
      decide

/-- **C2**.  The creation-time calculator (routes.py, +5:30 offset) and the
post-execution calculators (poller and webhook, plain UTC and always next
day) disagree on the same schedule and the same reference instant: for a
daily schedule at `10:00` with `now` = year 2, June 15, 04:00:00 UTC the
creation-time calculator yields June 15 04:30 UTC while both post-execution
calculators yield June 16 10:00 UTC. -/
theorem calculator_offset_divergence :
    routesCalc "10:00" .daily none none none ⟨2, 6, 15, 4, 0, 0⟩ = some ⟨2, 6, 15, 4, 30, 0⟩
      ∧ serviceCalc ⟨1, "10:00", .daily, none, none, true, none, none⟩ ⟨2, 6, 15, 4, 0, 0⟩
          = .ok (some ⟨2, 6, 16, 10, 0, 0⟩)
      ∧ webhookCalc ⟨1, "10:00", .daily, none, none, true, none, none⟩ ⟨2, 6, 15, 4, 0, 0⟩
          = some ⟨2, 6, 16, 10, 0, 0⟩
      ∧ (⟨2, 6, 15, 4, 30, 0⟩ : DateTime) ≠ ⟨2, 6, 16, 10, 0, 0⟩ := by
  refine ⟨by decide, by decide, by decide, by decide⟩

/-- **C4**.  Monthly clamping fails: with `day_of_month = 31` in April
(30 days, year 2) the creation-time calculator's current-month branch calls
`replace(day=31)` and raises (`none`) instead of resolving to April 30; the
webhook calculator has no monthly branch at all and behaves like `daily`
(April 16, ignoring `day_of_month`); the poller's December branch ignores
`day_of_month` and reuses the current day-of-month (20, not the requested
5). -/
theorem monthly_clamping_failure :
    routesCalc "10:00" .monthly none (some 31) none ⟨2, 4, 15, 4, 0, 0⟩ = none
      ∧ daysInMonth 2 4 = 30
      ∧ webhookCalc ⟨1, "10:00", .monthly, none, some 31, true, none, none⟩ ⟨2, 4, 15, 4, 0, 0⟩
          = some ⟨2, 4, 16, 10, 0, 0⟩
      ∧ serviceCalc ⟨1, "10:00", .monthly, none, some 5, true, none, none⟩ ⟨2, 12, 20, 4, 0, 0⟩
          = .ok (some ⟨3, 1, 20, 10, 0, 0⟩) := by
  refine ⟨by decide, by decide, by decide, by decide⟩

/-- **C6** (amended).  When the owning agent exists but is paused
(`is_active = false`), both executors return `False` (a failure outcome,
not a success) and leave the schedule row completely unchanged:
`last_run_at` is not set and `next_run_at` does not advance, so the
schedule remains due for the rest of the tolerance window. -/
theorem paused_agent_returns_failure_without_advancing (agent : Agent)
    (fetchNonempty sendOk : Bool) (s : Schedule) (now : DateTime)
    (hpause : agent.is_active = false) :
    serviceExecuteSchedule (some agent) fetchNonempty sendOk s now = (false, s)
      ∧ webhookExecuteSchedule (some agent) fetchNonempty sendOk s now = (false, s) := by
  unfold serviceExecuteSchedule webhookExecuteSchedule
  dsimp only
  rw [hpause]
  simp

/-- Witness for the amended C6 statement at a concrete paused agent and
schedule. -/
theorem paused_agent_returns_failure_without_advancing_witness :
    (Agent.mk false true).is_active = false
      ∧ serviceExecuteSchedule (some (Agent.mk false true)) true true
          ⟨1, "10:00", .daily, none, none, true, some ⟨2, 1, 1, 10, 0, 0⟩, none⟩ ⟨2, 1, 1, 10, 0, 0⟩
          = (false, ⟨1, "10:00", .daily, none, none, true, some ⟨2, 1, 1, 10, 0, 0⟩, none⟩) :=
  ⟨rfl, (paused_agent_returns_failure_without_advancing (Agent.mk false true) true true
      ⟨1, "10:00", .daily, none, none, true, some ⟨2, 1, 1, 10, 0, 0⟩, none⟩
      ⟨2, 1, 1, 10, 0, 0⟩ rfl).1⟩

/-- **C6** counterexample.  At a concrete due schedule with a paused agent,
execution returns `false` (the claim demands a success outcome) and the
returned row still has `last_run_at = none` and the old `next_run_at`
(the claim demands both to advance). -/
theorem paused_agent_skip_counterexample :
    serviceExecuteSchedule (some (Agent.mk false true)) true true
        ⟨1, "09:00", .daily, none, none, true, some ⟨2, 3, 5, 9, 0, 0⟩, none⟩ ⟨2, 3, 5, 9, 1, 0⟩
      = (false, ⟨1, "09:00", .daily, none, none, true, some ⟨2, 3, 5, 9, 0, 0⟩, none⟩)
      ∧ (⟨1, "09:00", .daily, none, none, true, some ⟨2, 3, 5, 9, 0, 0⟩, none⟩ : Schedule).last_run_at
          = none := by
  refine ⟨by decide, rfl⟩

/-- **C7**.  A `once` schedule's post-execution next-occurrence computation
returns `None` on both surfaces, the post-run update deactivates it, and a
deactivated row is never a member of any due set of any surface, for any
row list and any later instant. -/
theorem once_schedule_never_reconsidered (s : Schedule) (now now2 : DateTime)
    (rows : List Schedule) (hf : s.frequency_type = .once) :
    serviceCalc s now = .ok none
      ∧ webhookCalc s now = none
      ∧ (serviceUpdateAfterRun s now).is_active = false
      ∧ (webhookUpdateAfterRun s now).is_active = false
      ∧ serviceUpdateAfterRun s now ∉ pollerDueSet rows now2
      ∧ serviceUpdateAfterRun s now ∉ webhookDueSet rows now2
      ∧ webhookUpdateAfterRun s now ∉ pollerDueSet rows now2
      ∧ webhookUpdateAfterRun s now ∉ webhookDueSet rows now2 := by
  have hsc : serviceCalc s now = .ok none := by
    unfold serviceCalc
    rw [hf]
  have hwc : webhookCalc s now = none := by
    unfold webhookCalc
    rw [hf]
  have hsu : (serviceUpdateAfterRun s now).is_active = false := by
    unfold serviceUpdateAfterRun
    rw [hsc]
  have hwu : (webhookUpdateAfterRun s now).is_active = false := by
    unfold webhookUpdateAfterRun
    rw [hwc]
  obtain ⟨hs1, hs2⟩ := not_mem_dueSets_of_inactive _ hsu rows now2
  obtain ⟨hw1, hw2⟩ := not_mem_dueSets_of_inactive _ hwu rows now2
  exact ⟨hsc, hwc, hsu, hwu, hs1, hs2, hw1, hw2⟩

/-- Witness for C7 at a concrete once-schedule. -/
theorem once_schedule_never_reconsidered_witness :
    (⟨1, "10:00", .once, none, none, true, some ⟨2, 1, 1, 10, 0, 0⟩, none⟩ : Schedule).frequency_type
        = .once
      ∧ serviceCalc ⟨1, "10:00", .once, none, none, true, some ⟨2, 1, 1, 10, 0, 0⟩, none⟩
          ⟨2, 1, 1, 10, 0, 0⟩ = .ok none
      ∧ (webhookUpdateAfterRun ⟨1, "10:00", .once, none, none, true, some ⟨2, 1, 1, 10, 0, 0⟩, none⟩
          ⟨2, 1, 1, 10, 0, 0⟩).is_active = false :=
  ⟨rfl,
    (once_schedule_never_reconsidered
      ⟨1, "10:00", .once, none, none, true, some ⟨2, 1, 1, 10, 0, 0⟩, none⟩
      ⟨2, 1, 1, 10, 0, 0⟩ ⟨2, 1, 1, 10, 0, 0⟩ [] rfl).1,
    (once_schedule_never_reconsidered
      ⟨1, "10:00", .once, none, none, true, some ⟨2, 1, 1, 10, 0, 0⟩, none⟩
      ⟨2, 1, 1, 10, 0, 0⟩ ⟨2, 1, 1, 10, 0, 0⟩ [] rfl).2.2.2.1⟩

/-- **C8**.  At the failing input (a daily schedule whose `schedule_time`
is the unparsable string `"bad"`) the webhook's next-occurrence computation
returns `None` instead of raising, and the webhook's post-run update then
silently deactivates the schedule as if it were a one-time schedule; the
poller's computation raises, but the poller's update handler swallows the
exception and leaves the row unchanged — neither surface surfaces a
configuration error to its caller. -/
theorem malformed_time_silently_deactivates :
    parseScheduleTime "bad" = none
      ∧ webhookCalc ⟨1, "bad", .daily, none, none, true, some ⟨2, 5, 1, 10, 0, 0⟩, none⟩
          ⟨2, 5, 1, 10, 0, 0⟩ = none
      ∧ webhookUpdateAfterRun ⟨1, "bad", .daily, none, none, true, some ⟨2, 5, 1, 10, 0, 0⟩, none⟩
          ⟨2, 5, 1, 10, 0, 0⟩
        = ⟨1, "bad", .daily, none, none, false, some ⟨2, 5, 1, 10, 0, 0⟩, some ⟨2, 5, 1, 10, 0, 0⟩⟩
      ∧ serviceCalc ⟨1, "bad", .daily, none, none, true, some ⟨2, 5, 1, 10, 0, 0⟩, none⟩
          ⟨2, 5, 1, 10, 0, 0⟩ = .error ()
      ∧ serviceUpdateAfterRun ⟨1, "bad", .daily, none, none, true, some ⟨2, 5, 1, 10, 0, 0⟩, none⟩
          ⟨2, 5, 1, 10, 0, 0⟩
        = ⟨1, "bad", .daily, none, none, true, some ⟨2, 5, 1, 10, 0, 0⟩, none⟩ := by
  refine ⟨by decide, by decide, by decide, by decide, by decide⟩

/-- **C9**.  Webhook wire contract: a presented credential different from
the expected key yields HTTP 401 with the schedule table unchanged; the
correct credential yields HTTP 200 carrying the executed count and the
`now` timestamp together with the table state after the pass; a request
whose body cannot be read (so reading the credential itself raises) is
answered HTTP 500 with the table unchanged. -/
theorem webhook_auth_contract (configKey : Option String) (req : WebhookRequest)
    (rows : List Schedule) (agents : Nat → Option Agent)
    (fetchNonempty sendOk : Schedule → Bool) (now : DateTime) :
    (∀ apiKey, presentedKey req = .ok apiKey →
        apiKey ≠ some (configKey.getD defaultWebhookKey) →
        triggerSchedules configKey req rows agents fetchNonempty sendOk now
          = (.unauthorized, rows))
      ∧ (∀ apiKey, presentedKey req = .ok apiKey →
        apiKey = some (configKey.getD defaultWebhookKey) →
        triggerSchedules configKey req rows agents fetchNonempty sendOk now
          = (.ok (webhookPassCount rows agents fetchNonempty sendOk now) now,
             webhookPassRows rows agents fetchNonempty sendOk now))
      ∧ (presentedKey req = .error () →
        triggerSchedules configKey req rows agents fetchNonempty sendOk now
          = (.serverError, rows)) := by
  refine ⟨?_, ?_, ?_⟩
  · intro apiKey hok hne
    unfold triggerSchedules
    rw [hok]
    simp [hne]
  · intro apiKey hok heq
    unfold triggerSchedules
    rw [hok]
    simp [heq]
  · intro herr
    unfold triggerSchedules
    rw [herr]

/-- Witness for C9: a concrete request with the wrong key is answered 401
and the (empty) table is returned unchanged. -/
theorem webhook_auth_contract_witness :
    triggerSchedules none ⟨some "wrong-key", true, none⟩ [] (fun _ => none)
        (fun _ => false) (fun _ => false) ⟨2, 1, 1, 0, 0, 0⟩ = (.unauthorized, []) :=
  (webhook_auth_contract none ⟨some "wrong-key", true, none⟩ [] (fun _ => none)
      (fun _ => false) (fun _ => false) ⟨2, 1, 1, 0, 0, 0⟩).1 (some "wrong-key")
    (by decide) (by decide)

/-- **C10**.  With no `SCHEDULER_WEBHOOK_KEY` configured, the expected
credential defaults to the hard-coded literal `agentsdr-scheduler-2024`:
any request presenting exactly that string — in the `X-API-Key` header or
in the JSON body's `api_key` field — is authenticated and triggers a full
due-set evaluation and execution pass (HTTP 200 with the pass's executed
count). -/
theorem default_key_authenticates (req : WebhookRequest) (rows : List Schedule)
    (agents : Nat → Option Agent) (fetchNonempty sendOk : Schedule → Bool)
    (now : DateTime) :
    (req.headerKey = some "agentsdr-scheduler-2024" →
      triggerSchedules none req rows agents fetchNonempty sendOk now
        = (.ok (webhookPassCount rows agents fetchNonempty sendOk now) now,
           webhookPassRows rows agents fetchNonempty sendOk now))
      ∧ (req.headerKey = none → req.bodyIsJson = true →
        req.jsonApiKey = some "agentsdr-scheduler-2024" →
        triggerSchedules none req rows agents fetchNonempty sendOk now
          = (.ok (webhookPassCount rows agents fetchNonempty sendOk now) now,
             webhookPassRows rows agents fetchNonempty sendOk now)) := by
  constructor
  · intro hh
    have hok : presentedKey req = .ok (some "agentsdr-scheduler-2024") := by
      unfold presentedKey
      rw [hh]
      simp
    unfold triggerSchedules
    rw [hok]
    simp [defaultWebhookKey]
  · intro hh hb hj
    have hok : presentedKey req = .ok (some "agentsdr-scheduler-2024") := by
      unfold presentedKey
      rw [hh, hb, hj]
      simp
    unfold triggerSchedules
    rw [hok]
    simp [defaultWebhookKey]

/-- Witness for C10: a concrete request carrying the default key in the
header is authenticated and the handler answers 200 (with zero executions
over an empty table). -/
theorem default_key_authenticates_witness :
    triggerSchedules none ⟨some "agentsdr-scheduler-2024", false, none⟩ [] (fun _ => none)
        (fun _ => false) (fun _ => false) ⟨2, 1, 1, 0, 0, 0⟩
      = (.ok 0 ⟨2, 1, 1, 0, 0, 0⟩, []) :=
  ((default_key_authenticates ⟨some "agentsdr-scheduler-2024", false, none⟩ [] (fun _ => none)
      (fun _ => false) (fun _ => false) ⟨2, 1, 1, 0, 0, 0⟩).1 rfl).trans (by decide)

/-- **C3** (amended).  For a daily schedule the creation-time calculator
(routes.py) returns today's `time_of_day` in the fixed +5:30 local offset
converted to UTC when that occurrence is still strictly after the
reference instant, and otherwise that occurrence plus one calendar day;
the post-execution calculators (poller and webhook) instead always return
the occurrence one day after the reference day at `time_of_day`
interpreted as plain UTC, even when today's `time_of_day` has not yet
passed.  (`replaceTime (addMinutes now istOffsetMinutes) h m` is today's
occurrence in local coordinates; subtracting 19800 s converts to UTC.) -/
theorem daily_next_occurrence_per_surface (st : String) (h m : Nat)
    (dw dm : Option Nat) (ot : Option DateTime) (s : Schedule) (now : DateTime)
    (hv : now.Valid) (hlow : 19800 ≤ toSec now)
    (hp : parseScheduleTime st = some (h, m))
    (hps : parseScheduleTime s.schedule_time = some (h, m))
    (hfd : s.frequency_type = .daily) :
    (∀ t, routesCalc st .daily dw dm ot now = some t →
        (toSec now + 19800 < toSec (replaceTime (addMinutes now istOffsetMinutes) h m) →
          toSec t + 19800 = toSec (replaceTime (addMinutes now istOffsetMinutes) h m))
        ∧ (toSec (replaceTime (addMinutes now istOffsetMinutes) h m) ≤ toSec now + 19800 →
          toSec t + 19800 = toSec (replaceTime (addMinutes now istOffsetMinutes) h m) + 86400))
      ∧ (∀ t, serviceCalc s now = .ok (some t) →
          toSec t = toSec (replaceTime now h m) + 86400)
      ∧ (∀ t, webhookCalc s now = some t →
          toSec t = toSec (replaceTime now h m) + 86400) := by
  obtain ⟨hh, hm60⟩ := parseScheduleTime_bounds hp
  obtain ⟨hnlv, hnlsec⟩ := addMinutes_valid_toSec now istOffsetMinutes hv (by decide)
  rw [ist_offset_seconds] at hnlsec
  have hLv := replaceTime_valid (addMinutes now istOffsetMinutes) h m hh hm60 hnlv
  refine ⟨?_, ?_, ?_⟩
  · intro t ht
    rw [routesCalc_daily_eq st h m dw dm ot now hp] at ht
    by_cases hle : toSec (replaceTime (addMinutes now istOffsetMinutes) h m)
        ≤ toSec (addMinutes now istOffsetMinutes)
    · rw [if_pos hle] at ht
      rw [← Option.some.inj ht]
      have hXv := addDays_valid _ 1 hLv
      have hXsec := toSec_addDays _ 1 hLv
      have hsub := subMinutes_toSec_eq
        (addDays (replaceTime (addMinutes now istOffsetMinutes) h m) 1) hXv (by omega)
      constructor
      · intro hfut
        omega
      · intro hpast
        omega
    · rw [if_neg hle] at ht
      rw [← Option.some.inj ht]
      push_neg at hle
      have hsub := subMinutes_toSec_eq (replaceTime (addMinutes now istOffsetMinutes) h m)
        hLv (by omega)
      constructor
      · intro hfut
        omega
      · intro hpast
        omega
  · intro t ht
    rw [serviceCalc_daily_eq s now h m hfd hps] at ht
    rw [← Option.some.inj (Except.ok.inj ht)]
    have hrv := replaceTime_valid now h m hh hm60 hv
    rw [toSec_addDays _ 1 hrv]
  · intro t ht
    rw [webhookCalc_daily_eq s now h m hfd hps] at ht
    rw [← Option.some.inj ht]
    have hrv := replaceTime_valid now h m hh hm60 hv
    rw [toSec_addDays _ 1 hrv]

/-- Witness for the amended C3 at a concrete daily schedule (`09:00`) and
reference instant year 2, July 20, 02:00:00 UTC: the creation-time
calculator returns today's occurrence 03:30 UTC. -/
theorem daily_next_occurrence_per_surface_witness :
    DateTime.Valid ⟨2, 7, 20, 2, 0, 0⟩
      ∧ toSec (⟨2, 7, 20, 3, 30, 0⟩ : DateTime) + 19800
          = toSec (replaceTime (addMinutes ⟨2, 7, 20, 2, 0, 0⟩ istOffsetMinutes) 9 0) :=
  ⟨by decide,
    ((daily_next_occurrence_per_surface "09:00" 9 0 none none none
        ⟨1, "09:00", .daily, none, none, true, none, none⟩ ⟨2, 7, 20, 2, 0, 0⟩
        (by decide) (by decide) (by decide) (by decide) rfl).1
      ⟨2, 7, 20, 3, 30, 0⟩ (by decide)).1 (by decide)⟩

/-- For every valid reference instant (at least 5:30 past the calendar
origin) and every non-`once` frequency, whatever value the creation-time
calculator returns is strictly after the reference instant. -/
theorem routesCalc_strict (st : String) (freq : Frequency) (dw dm : Option Nat)
    (ot : Option DateTime) (now : DateTime) (hv : now.Valid)
    (hfreq : freq ≠ .once) :
    ∀ t, routesCalc st freq dw dm ot now = some t → toSec now < toSec t := by
  intro t ht
  obtain ⟨hnlv, hnlsec⟩ := addMinutes_valid_toSec now istOffsetMinutes hv (by decide)
  rw [ist_offset_seconds] at hnlsec
  cases hp : parseScheduleTime st with
  | none =>
    rw [routesCalc_parse_fail st freq dw dm ot now hfreq hp] at ht
    cases ht
  | some pr =>
    obtain ⟨h, m⟩ := pr
    obtain ⟨hh, hm60⟩ := parseScheduleTime_bounds hp
    have hLv := replaceTime_valid (addMinutes now istOffsetMinutes) h m hh hm60 hnlv
    have hnltod := timeOfDay_lt (addMinutes now istOffsetMinutes) hnlv
    have hnlsplit : toSec (addMinutes now istOffsetMinutes)
        = toDays (addMinutes now istOffsetMinutes) * 86400
          + ((addMinutes now istOffsetMinutes).hour * 3600
            + (addMinutes now istOffsetMinutes).minute * 60
            + (addMinutes now istOffsetMinutes).second) := rfl
    have hLsec := toSec_replaceTime (addMinutes now istOffsetMinutes) h m
    cases freq with
    | once => exact absurd rfl hfreq
    | daily =>
      rw [routesCalc_daily_eq st h m dw dm ot now hp] at ht
      by_cases hle : toSec (replaceTime (addMinutes now istOffsetMinutes) h m)
          ≤ toSec (addMinutes now istOffsetMinutes)
      · rw [if_pos hle] at ht
        rw [← Option.some.inj ht]
        have hXv := addDays_valid _ 1 hLv
        have hXsec := toSec_addDays _ 1 hLv
        exact routes_subMinutes_strict now _ hXv (by omega)
      · rw [if_neg hle] at ht
        rw [← Option.some.inj ht]
        push_neg at hle
        exact routes_subMinutes_strict now _ hLv (by omega)
    | weekly =>
      cases dw with
      | none =>
        rw [routesCalc_weekly_nodow st h m dm ot now hp] at ht
        cases ht
      | some dow =>
        rw [routesCalc_weekly_eq st h m dow dm ot now hp] at ht
        by_cases hcond : ((dow : Int) - ((weekday (addMinutes now istOffsetMinutes) + 1 : Nat) : Int)) % 7 = 0
            ∧ toSec (replaceTime (addMinutes now istOffsetMinutes) h m)
                ≤ toSec (addMinutes now istOffsetMinutes)
        · rw [if_pos hcond] at ht
          have h7 : ((7 : Int)).toNat = 7 := rfl
          rw [h7] at ht
          rw [← Option.some.inj ht]
          have hXv := addDays_valid _ 7 hLv
          have hXsec := toSec_addDays _ 7 hLv
          exact routes_subMinutes_strict now _ hXv (by omega)
        · rw [if_neg hcond] at ht
          have hnn : 0 ≤ ((dow : Int) - ((weekday (addMinutes now istOffsetMinutes) + 1 : Nat) : Int)) % 7 :=
            Int.emod_nonneg _ (by decide)
          by_cases hz : ((dow : Int) - ((weekday (addMinutes now istOffsetMinutes) + 1 : Nat) : Int)) % 7 = 0
          · have hnle := (not_and.mp hcond) hz
            push_neg at hnle
            rw [hz, Int.toNat_zero, addDays_zero] at ht
            rw [← Option.some.inj ht]
            exact routes_subMinutes_strict now _ hLv (by omega)
          · have h1 : 1 ≤ (((dow : Int) - ((weekday (addMinutes now istOffsetMinutes) + 1 : Nat) : Int)) % 7).toNat := by
              omega
            rw [← Option.some.inj ht]
            have hXv := addDays_valid _ (((dow : Int) - ((weekday (addMinutes now istOffsetMinutes) + 1 : Nat) : Int)) % 7).toNat hLv
            have hXsec := toSec_addDays _ (((dow : Int) - ((weekday (addMinutes now istOffsetMinutes) + 1 : Nat) : Int)) % 7).toNat hLv
            exact routes_subMinutes_strict now _ hXv (by omega)
    | monthly =>
      cases dm with
      | none =>
        rw [routesCalc_monthly_nodom st h m dw ot now hp] at ht
        cases ht
      | some dom =>
        rw [routesCalc_monthly_eq st h m dom dw ot now hp] at ht
        by_cases hb1 : (addMinutes now istOffsetMinutes).day < dom
        · rw [if_pos hb1] at ht
          obtain ⟨Y, hY, hYt⟩ := Option.map_eq_some'.mp ht
          rw [← hYt]
          unfold replaceDay at hY
          have hYv := replaceDate_valid _ hLv hY
          have htd := toDays_replaceDate _ hY
          have hyr : (replaceTime (addMinutes now istOffsetMinutes) h m).year
              = (addMinutes now istOffsetMinutes).year := rfl
          have hmo : (replaceTime (addMinutes now istOffsetMinutes) h m).month
              = (addMinutes now istOffsetMinutes).month := rfl
          rw [hyr, hmo] at htd
          obtain ⟨-, -, -, hd1, hd2⟩ := replaceDate_eq_some _ hY
          have hq := hnlv
          obtain ⟨hq1, hq2, hq3, hq4, -, -, -⟩ := hq
          have hdlt : toDays (addMinutes now istOffsetMinutes) < toDays Y := by
            rw [htd]
            unfold toDays
            omega
          have hYgt := toSec_lt_of_toDays_lt _ _ hnlv hdlt
          exact routes_subMinutes_strict now Y hYv (by omega)
        · rw [if_neg hb1] at ht
          by_cases hb2 : (addMinutes now istOffsetMinutes).day = dom
              ∧ toSec (addMinutes now istOffsetMinutes)
                  < toSec (replaceTime (addMinutes now istOffsetMinutes) h m)
          · rw [if_pos hb2] at ht
            obtain ⟨Y, hY, hYt⟩ := Option.map_eq_some'.mp ht
            rw [← hYt]
            unfold replaceDay at hY
            have hYv := replaceDate_valid _ hLv hY
            obtain ⟨hYeq, -⟩ := replaceDate_eq_some _ hY
            have hYsec : toSec Y = toSec (replaceTime (addMinutes now istOffsetMinutes) h m) := by
              rw [hYeq]
              unfold toSec toDays replaceTime
              dsimp only
              rw [← hb2.1]
            have hlt2 := hb2.2
            exact routes_subMinutes_strict now Y hYv (by omega)
          · rw [if_neg hb2] at ht
            by_cases hb3 : (addMinutes now istOffsetMinutes).month = 12
            · rw [if_pos hb3] at ht
              obtain ⟨Y, hY, hYt⟩ := Option.map_eq_some'.mp ht
              rw [← hYt]
              have hYv := replaceDate_valid _ hLv hY
              have hdlt := toDays_lt_year_rollover (addMinutes now istOffsetMinutes) hnlv _ hb3 hY
              have hYgt := toSec_lt_of_toDays_lt _ _ hnlv hdlt
              exact routes_subMinutes_strict now Y hYv (by omega)
            · rw [if_neg hb3] at ht
              obtain ⟨Y, hY, hYt⟩ := Option.map_eq_some'.mp ht
              rw [← hYt]
              have hYv := replaceDate_valid _ hLv hY
              have hdlt := toDays_lt_next_month (addMinutes now istOffsetMinutes) hnlv _ hY
              have hYgt := toSec_lt_of_toDays_lt _ _ hnlv hdlt
              exact routes_subMinutes_strict now Y hYv (by omega)

/-- Whatever value the poller's post-execution calculator returns for a
non-`once` schedule is strictly after the reference instant. -/
theorem serviceCalc_strict (s : Schedule) (now : DateTime) (hv : now.Valid)
    (hsf : s.frequency_type ≠ .once) :
    ∀ t, serviceCalc s now = .ok (some t) → toSec now < toSec t := by
  intro t ht
  cases hp : parseScheduleTime s.schedule_time with
  | none =>
    rw [serviceCalc_parse_fail s now hsf hp] at ht
    exact Except.noConfusion ht
  | some pr =>
    obtain ⟨h, m⟩ := pr
    obtain ⟨hh, hm60⟩ := parseScheduleTime_bounds hp
    cases hf : s.frequency_type with
    | once => exact absurd hf hsf
    | daily =>
      rw [serviceCalc_daily_eq s now h m hf hp] at ht
      rw [← Option.some.inj (Except.ok.inj ht)]
      exact toSec_now_lt_addDays_replaceTime now hv h m 1 hh hm60 (by omega)
    | weekly =>
      rw [serviceCalc_weekly_eq s now h m hf hp] at ht
      rw [← Option.some.inj (Except.ok.inj ht)]
      exact toSec_now_lt_addDays_replaceTime now hv h m 7 hh hm60 (by omega)
    | monthly =>
      rw [serviceCalc_monthly_eq s now h m hf hp] at ht
      by_cases h12 : now.month = 12
      · rw [if_pos h12] at ht
        cases hY : replaceDate (replaceTime now h m) (now.year + 1) 1 now.day with
        | none =>
          rw [hY] at ht
          exact Except.noConfusion ht
        | some Y =>
          rw [hY] at ht
          rw [← Option.some.inj (Except.ok.inj ht)]
          have hdlt := toDays_lt_year_rollover now hv _ h12 hY
          exact toSec_lt_of_toDays_lt _ _ hv hdlt
      · rw [if_neg h12] at ht
        cases hY : replaceDate (replaceTime now h m) now.year (now.month + 1)
            (min (s.day_of_month.getD now.day) (daysInMonth now.year (now.month + 1))) with
        | none =>
          rw [hY] at ht
          exact Except.noConfusion ht
        | some Y =>
          rw [hY] at ht
          rw [← Option.some.inj (Except.ok.inj ht)]
          have hdlt := toDays_lt_next_month now hv _ hY
          exact toSec_lt_of_toDays_lt _ _ hv hdlt

/-- Whatever value the standalone CLI poller's calculator returns for a
non-`once` schedule is strictly after the reference instant. -/
theorem enhancedCalc_strict (s : Schedule) (now : DateTime) (hv : now.Valid)
    (hsf : s.frequency_type ≠ .once) :
    ∀ t, enhancedCalc s now = .ok (some t) → toSec now < toSec t := by
  intro t ht
  cases hp : parseScheduleTime s.schedule_time with
  | none =>
    rw [enhancedCalc_parse_fail s now hsf hp] at ht
    exact Except.noConfusion ht
  | some pr =>
    obtain ⟨h, m⟩ := pr
    obtain ⟨hh, hm60⟩ := parseScheduleTime_bounds hp
    cases hf : s.frequency_type with
    | once => exact absurd hf hsf
    | daily =>
      rw [enhancedCalc_daily_eq s now h m hf hp] at ht
      rw [← Option.some.inj (Except.ok.inj ht)]
      exact toSec_now_lt_addDays_replaceTime now hv h m 1 hh hm60 (by omega)
    | weekly =>
      rw [enhancedCalc_weekly_eq s now h m hf hp] at ht
      rw [← Option.some.inj (Except.ok.inj ht)]
      exact toSec_now_lt_addDays_replaceTime now hv h m 7 hh hm60 (by omega)
    | monthly =>
      cases hdm : s.day_of_month with
      | none =>
        rw [enhancedCalc_monthly_nodom s now h m hf hdm hp] at ht
        by_cases h12 : now.month = 12
        · rw [if_pos h12] at ht
          cases hY : replaceDate (replaceTime now h m) (now.year + 1) 1 now.day with
          | none =>
            rw [hY] at ht
            exact Except.noConfusion ht
          | some Y =>
            rw [hY] at ht
            rw [← Option.some.inj (Except.ok.inj ht)]
            have hdlt := toDays_lt_year_rollover now hv _ h12 hY
            exact toSec_lt_of_toDays_lt _ _ hv hdlt
        · rw [if_neg h12] at ht
          exact Except.noConfusion ht
      | some dom =>
        rw [enhancedCalc_monthly_eq s now h m dom hf hdm hp] at ht
        by_cases h12 : now.month = 12
        · rw [if_pos h12] at ht
          cases hY : replaceDate (replaceTime now h m) (now.year + 1) 1 now.day with
          | none =>
            rw [hY] at ht
            exact Except.noConfusion ht
          | some Y =>
            rw [hY] at ht
            rw [← Option.some.inj (Except.ok.inj ht)]
            have hdlt := toDays_lt_year_rollover now hv _ h12 hY
            exact toSec_lt_of_toDays_lt _ _ hv hdlt
        · rw [if_neg h12] at ht
          cases hY : replaceDate (replaceTime now h m) now.year (now.month + 1)
              (min dom (daysInMonth now.year (now.month + 1))) with
          | none =>
            rw [hY] at ht
            exact Except.noConfusion ht
          | some Y =>
            rw [hY] at ht
            rw [← Option.some.inj (Except.ok.inj ht)]
            have hdlt := toDays_lt_next_month now hv _ hY
            exact toSec_lt_of_toDays_lt _ _ hv hdlt

/-- **C5**.  For every daily, weekly, or monthly schedule and every valid
reference instant, whenever the creation-time calculator (routes.py), the
poller's post-execution calculator, or the standalone CLI poller's
calculator returns a next occurrence, it is strictly greater than the
reference instant. -/
theorem next_occurrence_strictly_future (st : String) (freq : Frequency)
    (dw dm : Option Nat) (ot : Option DateTime) (s : Schedule) (now : DateTime)
    (hv : now.Valid) (hfreq : freq ≠ .once)
    (hsfreq : s.frequency_type ≠ .once) :
    (∀ t, routesCalc st freq dw dm ot now = some t → toSec now < toSec t)
      ∧ (∀ t, serviceCalc s now = .ok (some t) → toSec now < toSec t)
      ∧ (∀ t, enhancedCalc s now = .ok (some t) → toSec now < toSec t) :=
  ⟨routesCalc_strict st freq dw dm ot now hv hfreq,
    serviceCalc_strict s now hv hsfreq,
    enhancedCalc_strict s now hv hsfreq⟩

/-- Witness for C5 at a concrete daily schedule (`09:00`) and reference
instant year 2, January 10, 12:00:00 UTC: the creation-time calculator
returns January 11, 03:30 UTC, strictly later. -/
theorem next_occurrence_strictly_future_witness :
    DateTime.Valid ⟨2, 1, 10, 12, 0, 0⟩
      ∧ toSec (⟨2, 1, 10, 12, 0, 0⟩ : DateTime) < toSec (⟨2, 1, 11, 3, 30, 0⟩ : DateTime) :=
  ⟨by decide,
    (next_occurrence_strictly_future "09:00" .daily none none none
        ⟨1, "09:00", .daily, none, none, true, none, none⟩ ⟨2, 1, 10, 12, 0, 0⟩
        (by decide) (by decide) (by decide)).1
      ⟨2, 1, 11, 3, 30, 0⟩ (by decide)⟩

/-- **C3** counterexample.  At year 2, July 20, 02:00:00 UTC, today's
`09:00` occurrence is still in the future under both readings of the
offset (09:00 UTC, and 09:00 IST = 03:30 UTC, which is what the
creation-time calculator returns), yet the poller's and the webhook's
calculators return July 21 — not today's occurrence. -/
theorem daily_skips_today_counterexample :
    toSec (⟨2, 7, 20, 2, 0, 0⟩ : DateTime) < toSec (replaceTime ⟨2, 7, 20, 2, 0, 0⟩ 9 0)
      ∧ routesCalc "09:00" .daily none none none ⟨2, 7, 20, 2, 0, 0⟩ = some ⟨2, 7, 20, 3, 30, 0⟩
      ∧ serviceCalc ⟨1, "09:00", .daily, none, none, true, none, none⟩ ⟨2, 7, 20, 2, 0, 0⟩
          = .ok (some ⟨2, 7, 21, 9, 0, 0⟩)
      ∧ webhookCalc ⟨1, "09:00", .daily, none, none, true, none, none⟩ ⟨2, 7, 20, 2, 0, 0⟩
          = some ⟨2, 7, 21, 9, 0, 0⟩
      ∧ (⟨2, 7, 21, 9, 0, 0⟩ : DateTime) ≠ replaceTime ⟨2, 7, 20, 2, 0, 0⟩ 9 0
      ∧ (⟨2, 7, 21, 9, 0, 0⟩ : DateTime) ≠ ⟨2, 7, 20, 3, 30, 0⟩ := by
  refine ⟨by decide, by decide, by decide, by decide, by decide, by decide⟩

end AgentSDR
